import Mathlib

/-!
Shallow embedding of the `imprint` crate (`src/lib.rs`): branded value
containers (`Val<'x, T>`), the propositional type-equality witness
(`TyEq<T, U>`), the scoping entry point (`imprint`), and the existential
lifetime wrapper (`Exists<F>`).

Modelling decisions, recorded next to the definitions they concern:
  * Rust lifetimes/brand markers (`'x`) are modelled by an abstract `Scope`
    type (`Nat` labels); `'static` is the distinguished label `staticScope`.
  * `Val<'x, T>` stores `tag: PhantomData` (zero bytes) and `inner: T`, so
    its runtime representation is exactly `T`; the embedding makes the
    marker a phantom parameter of a type synonym.
  * `TyEq<T, U>` is a zero-size token whose invariant is that `T` and `U`
    are interchangeable; `apply` is `mem::transmute_copy`, a bit-identity
    reinterpretation.  The embedding carries the invariant as a type
    equality and `apply` casts along it, which is exactly a
    value-preserving reinterpretation.
-/

namespace Imprint

/-- Brand markers (`'x` lifetimes in the source) as abstract labels. -/
abbrev Scope := Nat

/-- The distinguished `'static` marker used by `Default for Val<'static, T>`
and by `Exists`, which stores `<F as TyFnL<'static>>::Output`. -/
def staticScope : Scope := 0

/-- `Val<'x, T>` from the source: `{ tag: PhantomInvariantLifetime<'x>,
inner: T }`.  The tag is `PhantomData` (no runtime representation), so the
container is represented exactly as its inner `T`; the marker is a phantom
parameter. -/
@[reducible] def Val (_x : Scope) (T : Type) : Type := T

/-- The `inner` field of `Val`. -/
@[reducible] def Val.inner {x : Scope} {T : Type} (v : Val x T) : T := v

/-- `impl IntoInner for Val`: `fn into_inner(self) -> T { self.inner }`. -/
def Val.into_inner {x : Scope} {T : Type} (v : Val x T) : T := v.inner

/-- `pub fn imprint<F, R, T>(value: T, callback: F) -> R`:
`callback(Val { tag: PhantomData, inner: value })`.  The fresh marker minted
for this call is the explicit parameter `s` (the source obtains freshness
from the higher-rank bound `for<'x>`, which a shallow embedding cannot
enforce; the runtime behaviour is just the call below). -/
def imprint {R T : Type} (s : Scope) (value : T) (callback : (x : Scope) → Val x T → R) : R :=
  callback s value

/-- `pub struct TyEq<T, U>(PhantomInvariantData<T>, PhantomInvariantData<U>)`:
a zero-size token asserting that `T` and `U` are interchangeable types.  The
embedding carries that invariant as the type equality `eq`. -/
structure TyEq (A B : Type) : Type where
  eq : A = B

/-- `TyEq::refl`: constructor for `TyEq` (reflexivity). -/
def TyEq.refl {T : Type} : TyEq T T := ⟨rfl⟩

/-- `TyEq::apply`: substitute instances of `T` within a type with `U`
(Leibniz's law).  The source reinterprets the bits of `value : F<T>::Output`
at type `F<U>::Output` via `mem::transmute_copy`; the embedding casts along
the carried type equality, which changes no data. -/
def TyEq.apply {A B : Type} (e : TyEq A B) (F : Type → Type) (v : F A) : F B :=
  e.eq ▸ v

/-- `TyEq::sym`: exchange `T` and `U` (symmetry), defined exactly as in the
source by applying `self` at the shape `X ↦ TyEq<X, T>` to `TyEq::refl()`. -/
def TyEq.sym {A B : Type} (e : TyEq A B) : TyEq B A :=
  e.apply (fun X => TyEq X A) TyEq.refl

/-- `TyEq::trans`: compose two equalities (transitivity), defined exactly as
in the source by applying `other` at the shape `X ↦ TyEq<T, X>` to `self`. -/
def TyEq.trans {A B C : Type} (e : TyEq A B) (other : TyEq B C) : TyEq A C :=
  other.apply (fun X => TyEq A X) e

/-- `pub struct Identity` with `impl TyFn<T> for Identity { type Output = T }`:
the identity function for types. -/
@[reducible] def Identity : Type → Type := fun T => T

/-- `TyEq::cast`: cast from `T` to `U`, `self.apply::<Identity>(value)`. -/
def TyEq.cast {A B : Type} (e : TyEq A B) (value : A) : B :=
  e.apply Identity value

/-- Modelled from the spec: `Val::eq` delegates to `arith::partial_equal`,
whose module (`arith`, declared `pub mod arith;`) is not among the sources.
Per the spec's Compare-for-equality contract it evaluates the
partial-equality comparison on the borrowed inner values and yields equality
evidence relating the two container types exactly when the values compare
equal, and an explicit no-witness result otherwise. -/
def arith_pequal {T : Type} [BEq T] {x y : Scope} (a : Val x T) (b : Val y T) :
    Option (TyEq (Val x T) (Val y T)) :=
  if a.inner == b.inner then some ⟨rfl⟩ else none

/-- `Val::eq`: `arith::partial_equal(self, other).map(|eq| eq.into_ty_eq())`.
`into_ty_eq` converts the arith-level evidence into a `TyEq` between the two
container types; in the embedding the evidence already is that `TyEq`, so the
conversion is the identity. -/
def Val.eq {T : Type} [BEq T] {x y : Scope} (a : Val x T) (b : Val y T) :
    Option (TyEq (Val x T) (Val y T)) :=
  (arith_pequal a b).map (fun e => e)

/-- `impl<T: Default> Default for Val<'static, T>`: the default value always
has the special marker `'static`. -/
def Val.defaultVal (T : Type) [Inhabited T] : Val staticScope T :=
  (default : T)

/-- `impl<'x, T: Copy + fmt::Debug> fmt::Debug for Val<'x, T>`.  The body is
`f.write_str("Val(")?; self.fmt(f)?; f.write_str(")")`.  The file imports
only the module (`use std::fmt;`), not the `Debug` trait itself, so the impl
is not a method-resolution candidate for the inner call; `self.fmt(f)`
auto-derefs through the `Deref` impl to `T` and resolves via the
`T: fmt::Debug` where-clause bound to the inner value's formatter, embedded
here as the function `dbg`.  The method thus writes `"Val("`, the inner
value's `Debug` output, then `")"`. -/
def Val.fmtDebug {x : Scope} {T : Type} (dbg : T → String) (v : Val x T) : String :=
  "Val(" ++ dbg v.inner ++ ")"

/-- `pub trait TyFnL<'a> { type Output; }`: type-level functions over a
scope marker, used by `Exists`. -/
def TyFnL := Scope → Type

/-- `pub struct Exists<F>(<F as TyFnL<'static>>::Output)`: an object with an
existentially quantified lifetime, stored at the `'static` instantiation. -/
structure Exists (F : TyFnL) : Type where
  payload : F staticScope

/-- `Exists::new`: reinterprets `value : <F as TyFnL<'a>>::Output` at type
`<F as TyFnL<'static>>::Output` via `ptr::read` (a bit-identity move).  This
is sound only because `TyFnL` implementations are required to be parametric
in `'a`; the embedding takes that representation-transparency requirement as
the hypothesis `h`. -/
def Exists.new (F : TyFnL) (a : Scope) (h : F a = F staticScope) (value : F a) :
    Exists F :=
  ⟨cast h value⟩

/-- `Exists::with`: `callback(self.0)`; the polymorphic callback is handed
the stored payload (the source instantiates the callback's fresh `'a` at the
stored representation). -/
def Exists.with {F : TyFnL} {R : Type} (e : Exists F) (callback : (a : Scope) → F a → R) : R :=
  callback staticScope e.payload

/-- The `ValF` shape from the source's `Exists` documentation:
`impl<'a, T> TyFnL<'a> for ValF<T> { type Output = Val<'a, T>; }`. -/
def ValF (T : Type) : TyFnL := fun a => Val a T

/-- Claim C1: for every inner type supporting partial equality, `Val::eq` on
two branded containers (any markers, from the same or separate `imprint`
calls) reports a witness exactly when the inner values compare equal, and
reports `none` — never an error — when they differ. -/
theorem val_eq_spec {T : Type} [BEq T] {x y : Scope} (a : Val x T) (b : Val y T) :
    ((a.eq b).isSome = (a.inner == b.inner)) ∧
    ((a.inner == b.inner) = false → a.eq b = none) := by
  constructor
  · by_cases h : (a.inner == b.inner) = true
    · simp [Val.eq, arith_pequal, h]
    · simp only [Bool.not_eq_true] at h
      simp [Val.eq, arith_pequal, h]
  · intro h
    simp [Val.eq, arith_pequal, h]

/-- Witness for C1 at concrete inputs: equal values (42 and 42) under
distinct markers yield a witness; unequal values (42 and 0) yield none. -/
theorem val_eq_spec_witness :
    (Val.eq (x := 0) (y := 1) (42 : Val 0 Nat) (42 : Val 1 Nat)).isSome = true ∧
    Val.eq (x := 0) (y := 1) (42 : Val 0 Nat) (0 : Val 1 Nat) = none := by
  constructor
  · rw [(val_eq_spec (x := 0) (y := 1) (42 : Val 0 Nat) (42 : Val 1 Nat)).1]
    decide
  · exact (val_eq_spec (x := 0) (y := 1) (42 : Val 0 Nat) (0 : Val 1 Nat)).2 (by decide)

/-- Claim C2: `imprint(v, |x| x.into_inner()) == v` for every value of every
type and every minted marker; extraction always succeeds (it is total) and
`imprint` returns exactly the continuation's result. -/
theorem imprint_extract_roundtrip {T : Type} (s : Scope) (v : T) :
    imprint s v (fun _ x => x.into_inner) = v ∧
    ∀ (R : Type) (k : (x : Scope) → Val x T → R), imprint s v k = k s v :=
  ⟨rfl, fun _ _ => rfl⟩

/-- Claim C3: for every witness `e : TyEq A B`, every type shape `F` and
every value, applying `e` then `sym(e)` (and vice versa) returns the
original value unchanged, and `sym(sym(e))` is `e` itself. -/
theorem tyEq_sym_roundtrip {A B : Type} (e : TyEq A B) (F : Type → Type)
    (v : F A) (w : F B) :
    e.sym.apply F (e.apply F v) = v ∧
    e.apply F (e.sym.apply F w) = w ∧
    e.sym.sym = e := by
  obtain ⟨h⟩ := e
  subst h
  exact ⟨rfl, rfl, rfl⟩

/-- Claim C4: applying the reflexivity witness `TyEq::refl()` (through any
shape, or via `cast`) returns the value unchanged; moreover every witness
between a type and itself behaves as `refl` (it is the unique such witness,
matching refl being the one safe direct constructor). -/
theorem tyEq_refl_identity {T : Type} (F : Type → Type) (v : F T) (t : T) :
    (TyEq.refl (T := T)).apply F v = v ∧
    (TyEq.refl (T := T)).cast t = t ∧
    ∀ e : TyEq T T, e = TyEq.refl :=
  ⟨rfl, rfl, fun e => by cases e; rfl⟩

/-- Claim C5: applying `trans(e1, e2)` to a value yields the same result as
applying `e1` and then `e2` directly, for every shape and value. -/
theorem tyEq_trans_compose {A B C : Type} (e1 : TyEq A B) (e2 : TyEq B C)
    (F : Type → Type) (v : F A) :
    (e1.trans e2).apply F v = e2.apply F (e1.apply F v) := by
  obtain ⟨h1⟩ := e1
  obtain ⟨h2⟩ := e2
  subst h1; subst h2
  rfl

/-- Claim C6: `apply` is a pure reinterpretation: the produced value of type
`F B` is the input value itself (heterogeneous equality — no data is
recomputed), and the input and output types agree (so the size-and-layout
precondition holds in the model). -/
theorem tyEq_apply_preserves {A B : Type} (e : TyEq A B) (F : Type → Type) (v : F A) :
    HEq (e.apply F v) v ∧ F A = F B := by
  obtain ⟨h⟩ := e
  subst h
  exact ⟨HEq.rfl, rfl⟩

/-- Claim C7: `cast` is exactly `apply` instantiated with the `Identity`
type function. -/
theorem tyEq_cast_is_apply_identity {A B : Type} (e : TyEq A B) (v : A) :
    e.cast v = e.apply Identity v :=
  rfl

/-- Claim C8: default construction always produces a container at the one
universal marker `staticScope` (so any two defaults of the same inner type
have the same marker type and are comparable), and whenever the values of
two such defaults compare equal, `Val::eq` yields a witness — indeed the
reflexivity witness, with no runtime scope check needed. -/
theorem val_default_comparable {T : Type} [Inhabited T] [BEq T]
    (h : ((Val.defaultVal T).inner == (Val.defaultVal T).inner) = true) :
    (Val.defaultVal T).eq (Val.defaultVal T) = some TyEq.refl := by
  simp [Val.eq, arith_pequal, h]

/-- Witness for C8 at a concrete inner type: two default `Nat` containers
compare equal and yield the reflexivity witness. -/
theorem val_default_comparable_witness :
    (Val.defaultVal Nat).eq (Val.defaultVal Nat) = some TyEq.refl :=
  val_default_comparable (by decide)

/-- Claim C9: capturing a value with `Exists::new` and immediately re-opening
with `Exists::with` hands the continuation the very value captured (the
capture changes nothing inside — heterogeneous equality across the marker
erasure); in particular for the `ValF` shape the extracted value equals the
original. -/
theorem exists_capture_open_roundtrip (F : TyFnL) (a : Scope)
    (h : F a = F staticScope) (v : F a) :
    HEq ((Imprint.Exists.new F a h v).payload) v ∧
    (∀ (R : Type) (k : (b : Scope) → F b → R),
      (Imprint.Exists.new F a h v).with k = k staticScope (cast h v)) ∧
    (∀ (T : Type) (w : Val a T),
      (Imprint.Exists.new (ValF T) a rfl w).with
          (fun b u => Val.into_inner (x := b) (T := T) u) =
        w.into_inner) :=
  ⟨cast_heq h v, fun _ _ => rfl, fun _ _ => rfl⟩

/-- Witness for C9 at concrete inputs: capturing `42` under marker `1` in the
`ValF Nat` shape and re-opening extracts `42`. -/
theorem exists_capture_open_roundtrip_witness :
    (Imprint.Exists.new (ValF Nat) 1 rfl (42 : Val 1 Nat)).with
      (fun b u => Val.into_inner (x := b) (T := Nat) u) = 42 :=
  (exists_capture_open_roundtrip (ValF Nat) 1 rfl (42 : Val 1 Nat)).2.2 Nat
    (42 : Val 1 Nat)

/-- Claim C10: formatting a branded container with the `Debug` impl
terminates (the embedded formatter is a total function, evaluated here on a
concrete input) and writes `"Val("` followed by the inner value's `Debug`
representation followed by `")"` — for every marker, inner type, inner
formatter and value, and concretely `"Val(42)"` on the container holding
`42`. -/
theorem val_fmtDebug_writes :
    (∀ {x : Scope} {T : Type} (dbg : T → String) (v : Val x T),
      Val.fmtDebug dbg v = "Val(" ++ dbg v.inner ++ ")") ∧
    Val.fmtDebug (x := 0) Nat.repr (42 : Val 0 Nat) = "Val(42)" := by
  refine ⟨fun dbg v => rfl, ?_⟩
  decide

end Imprint
